import Mathlib

/-!
Verification of the VRCIA color-relay system: a WebSocket server
(`server.js`-style source) that accepts client connections, classifies
inbound payloads (JSON vs. plain text), extracts a color token and fans
it out to all other open connections, probes liveness with a heartbeat,
and shuts down gracefully; plus the browser client (`script.js`).

The development is a shallow embedding: each JavaScript function that the
claims touch is translated into an executable Lean definition, and the
claims are settled as theorems about those definitions.
-/

namespace VRCIA

/-! ## JSON values

Model of the JavaScript values produced by `JSON.parse`.  The server only
inspects parsed values through property access (`.color`, `.message`,
`.clientType`) and truthiness, both modelled below. -/

inductive Json where
  | null
  | bool (b : Bool)
  | num (n : Int)
  | str (s : String)
  | arr (elems : List Json)
  | obj (fields : List (String × Json))

/-- JavaScript property access `v.key` on a parsed value: defined for
objects, `undefined` (here `none`) on every other value. -/
def Json.getField : Json → String → Option Json
  | .obj fs, k => fs.lookup k
  | _, _ => none

/-- JavaScript truthiness of a defined value: `null`, `false`, `0` and the
empty string are falsy; objects and arrays are always truthy. -/
def jsTruthyV : Json → Bool
  | .null => false
  | .bool b => b
  | .num n => n != 0
  | .str s => s != ""
  | .arr _ => true
  | .obj _ => true

/-- JavaScript truthiness where `none` stands for `undefined`. -/
def jsTruthy : Option Json → Bool
  | none => false
  | some v => jsTruthyV v

/-! ## A JSON parser modelling `JSON.parse`

Executable parser for the JSON fragment the system exchanges: objects,
arrays, strings (with the common escapes), integers, `true`, `false`,
`null`.  Inputs that are not valid JSON — in particular bare words such
as `red` — fail to parse, exactly as `JSON.parse` throws on them. -/

def isJsonWs (c : Char) : Bool :=
  c = ' ' || c = '\t' || c = '\n' || c = '\r'

def skipWs : List Char → List Char
  | [] => []
  | c :: cs => if isJsonWs c then skipWs cs else c :: cs

def escChar (c : Char) : Option Char :=
  if c = '"' then some '"'
  else if c = '\\' then some '\\'
  else if c = '/' then some '/'
  else if c = 'n' then some '\n'
  else if c = 't' then some '\t'
  else if c = 'r' then some '\r'
  else none

/-- Parse the body of a string literal, after the opening quote. -/
def parseStrBody (fuel : Nat) (cs : List Char) : Option (List Char × List Char) :=
  match fuel, cs with
  | 0, _ => none
  | _, [] => none
  | fuel + 1, c :: cs =>
    if c = '"' then some ([], cs)
    else if c = '\\' then
      match cs with
      | [] => none
      | e :: cs' =>
        match escChar e with
        | none => none
        | some d =>
          match parseStrBody fuel cs' with
          | some (s, rest) => some (d :: s, rest)
          | none => none
    else
      match parseStrBody fuel cs with
      | some (s, rest) => some (c :: s, rest)
      | none => none

def isDigit (c : Char) : Bool := '0' ≤ c && c ≤ '9'

def digitVal (c : Char) : Nat := c.toNat - 48

/-- Parse a run of decimal digits into a natural number accumulator. -/
def parseDigits (fuel : Nat) (acc : Nat) (cs : List Char) : Option (Nat × List Char) :=
  match fuel, cs with
  | 0, _ => none
  | _, [] => some (acc, [])
  | fuel + 1, c :: cs =>
    if isDigit c then parseDigits fuel (acc * 10 + digitVal c) cs
    else some (acc, c :: cs)

mutual

/-- Parse one JSON value, returning it with the unconsumed remainder. -/
def parseVal (fuel : Nat) (cs : List Char) : Option (Json × List Char) :=
  match fuel with
  | 0 => none
  | fuel + 1 =>
    match skipWs cs with
    | [] => none
    | c :: rest =>
      if c = '\x7b' then
        match skipWs rest with
        | '\x7d' :: rest' => some (.obj [], rest')
        | _ =>
          match parseMembers fuel rest with
          | some (fs, rest') =>
            match skipWs rest' with
            | '\x7d' :: rest'' => some (.obj fs, rest'')
            | _ => none
          | none => none
      else if c = '[' then
        match skipWs rest with
        | ']' :: rest' => some (.arr [], rest')
        | _ =>
          match parseElems fuel rest with
          | some (vs, rest') =>
            match skipWs rest' with
            | ']' :: rest'' => some (.arr vs, rest'')
            | _ => none
          | none => none
      else if c = '"' then
        match parseStrBody fuel rest with
        | some (s, rest') => some (.str (String.mk s), rest')
        | none => none
      else if c = 't' then
        match rest with
        | 'r' :: 'u' :: 'e' :: rest' => some (.bool true, rest')
        | _ => none
      else if c = 'f' then
        match rest with
        | 'a' :: 'l' :: 's' :: 'e' :: rest' => some (.bool false, rest')
        | _ => none
      else if c = 'n' then
        match rest with
        | 'u' :: 'l' :: 'l' :: rest' => some (.null, rest')
        | _ => none
      else if c = '-' then
        match rest with
        | d :: rest' =>
          if isDigit d then
            match parseDigits fuel (digitVal d) rest' with
            | some (n, rest'') => some (.num (-(n : Int)), rest'')
            | none => none
          else none
        | [] => none
      else if isDigit c then
        match parseDigits fuel (digitVal c) rest with
        | some (n, rest') => some (.num (n : Int), rest')
        | none => none
      else none

/-- Parse the members of a JSON object (after the opening brace). -/
def parseMembers (fuel : Nat) (cs : List Char) : Option (List (String × Json) × List Char) :=
  match fuel with
  | 0 => none
  | fuel + 1 =>
    match skipWs cs with
    | '"' :: rest =>
      match parseStrBody fuel rest with
      | some (k, rest') =>
        match skipWs rest' with
        | ':' :: rest'' =>
          match parseVal fuel rest'' with
          | some (v, rest₃) =>
            match skipWs rest₃ with
            | ',' :: rest₄ =>
              match parseMembers fuel rest₄ with
              | some (fs, rest₅) => some ((String.mk k, v) :: fs, rest₅)
              | none => none
            | other => some ([(String.mk k, v)], other)
          | none => none
        | _ => none
      | none => none
    | _ => none

/-- Parse the elements of a JSON array (after the opening bracket). -/
def parseElems (fuel : Nat) (cs : List Char) : Option (List Json × List Char) :=
  match fuel with
  | 0 => none
  | fuel + 1 =>
    match parseVal fuel cs with
    | some (v, rest) =>
      match skipWs rest with
      | ',' :: rest' =>
        match parseElems fuel rest' with
        | some (vs, rest'') => some (v :: vs, rest'')
        | none => none
      | other => some ([v], other)
    | none => none

end

/-- `JSON.parse(s)` as used by the message handler: `some v` when the whole
payload is a JSON document, `none` when parsing throws. -/
def parseJson (s : String) : Option Json :=
  match parseVal (2 * s.length + 2) s.data with
  | some (v, rest) => if skipWs rest = [] then some v else none
  | none => none

/-! ## The Message Classifier

Embedding of the extraction logic of the `ws.on('message')` handler:

    let parsedData; let isJson = false;
    try { parsedData = JSON.parse(message); isJson = true; ... }
    catch (e) { parsedData = message; }
    const hexCode = isJson ? (parsedData.color || parsedData.message || message) : message;
-/

/-- The token forwarded for an inbound payload `msg`: the JavaScript
expression `isJson ? (parsedData.color || parsedData.message || message) : message`,
with `||` returning its left operand exactly when it is truthy. -/
def hexCodeOf (msg : String) : Json :=
  match parseJson msg with
  | some v =>
    if jsTruthy (v.getField "color") then (v.getField "color").getD .null
    else if jsTruthy (v.getField "message") then (v.getField "message").getD .null
    else .str msg
  | none => .str msg

/-- The role declared by an inbound payload, if any: the handler runs
`if (parsedData.clientType && client) client.type = parsedData.clientType`
only when the payload parsed as JSON. -/
def declaredRoleOf (msg : String) : Option Json :=
  match parseJson msg with
  | some v => if jsTruthy (v.getField "clientType") then v.getField "clientType" else none
  | none => none

/-! ## Identity generation

    let clientIdCounter = 1;
    function generateClientId() { return `client_${clientIdCounter++}`; }

The template literal renders the counter in decimal; `natDigits`/`natRepr`
model that rendering. -/

def digitChar (d : Nat) : Char := Char.ofNat (48 + d)

/-- Decimal digits of `n`, most significant first. -/
def natDigits (n : Nat) : List Nat :=
  if _h : n < 10 then [n]
  else natDigits (n / 10) ++ [n % 10]
termination_by n
decreasing_by exact Nat.div_lt_self (by omega) (by omega)

/-- Decimal rendering of a natural number, as the template literal does. -/
def natRepr (n : Nat) : String := String.mk ((natDigits n).map digitChar)

/-- The identity string assigned for counter value `n`. -/
def mkClientId (n : Nat) : String := "client_" ++ natRepr n

/-- `generateClientId`: returns the fresh identity and the post-increment
counter. -/
def generateClientId (counter : Nat) : String × Nat :=
  (mkClientId counter, counter + 1)

/-- The identities assigned by a sequence of `n` connection-accept events
starting from counter value `counter`.  Closing a connection never touches
the counter, so a run of accepts interleaved with arbitrary closes assigns
exactly this list. -/
def runAccepts (counter : Nat) : Nat → List String
  | 0 => []
  | n + 1 =>
    let g := generateClientId counter
    g.1 :: runAccepts g.2 n

/-! ## Server connection state

One `Conn` merges a member of the `wss.clients` set with its metadata
record in the `clients` map; the two are created and destroyed together
and share the key (`ws.clientId` / map key).  `sendOk` models whether a
transport send to this peer raises; `role` is the `type` field of the
metadata record. -/

inductive ReadyState where
  | connecting
  | opened
  | closing
  | closed
deriving DecidableEq

structure Conn where
  id : Nat
  readyState : ReadyState
  isAlive : Bool
  sendOk : Bool
  role : Json
  messageCount : Nat

/-- The record stored on connection-accept: `type: 'unknown'`,
`isAlive: true`, `messageCount: 0`, on an open transport. -/
def registerConn (id : Nat) : Conn :=
  { id := id, readyState := .opened, isAlive := true, sendOk := true,
    role := .str "unknown", messageCount := 0 }

/-! ## Broadcast Engine

    function broadcast(message, sender = null) {
        wss.clients.forEach((client) => {
            if (client !== sender && client.readyState === WebSocket.OPEN) {
                client.send(message);
            }
        });
    }

There is no try/catch around `client.send`; an exception thrown by a send
aborts the `forEach` and propagates out of `broadcast`.  `broadcastRun`
returns the list of deliveries made, as (target id, payload) pairs, and
whether an exception escaped. -/

def broadcastRun (token : Json) (sender : Option Nat) : List Conn → List (Nat × Json) × Bool
  | [] => ([], false)
  | c :: cs =>
    if some c.id ≠ sender ∧ c.readyState = .opened then
      if c.sendOk then
        let r := broadcastRun token sender cs
        ((c.id, token) :: r.1, r.2)
      else ([], true)
    else broadcastRun token sender cs

/-- The count the message handler logs after a broadcast:
`wss.clients.size - 1`, not a value returned by `broadcast` (which
returns nothing). -/
def loggedBroadcastCount (cs : List Conn) : Nat := cs.length - 1

/-- `{type:'system', message, timestamp}` as built by
`broadcastSystemMessage` (the source stringifies it before sending). -/
def systemEnvelope (text now : String) : Json :=
  .obj [("type", .str "system"), ("message", .str text), ("timestamp", .str now)]

/-! ## Message handler

Embedding of the body of `ws.on('message')`: bump the sender's message
counter, classify the payload (updating the role on a truthy
`clientType`), broadcast the extracted token excluding the sender, and
log `wss.clients.size - 1`.  The whole body sits in a try/catch whose
catch logs the error and sends an error envelope back to the sender via
`sendToClient`; the only modelled operation that can throw inside the try
is a broadcast send. -/

def bumpCount (sid : Nat) (cs : List Conn) : List Conn :=
  cs.map fun c => if c.id = sid then { c with messageCount := c.messageCount + 1 } else c

def setRole (sid : Nat) (r : Json) (cs : List Conn) : List Conn :=
  cs.map fun c => if c.id = sid then { c with role := r } else c

structure HandlerResult where
  token : Json
  deliveries : List (Nat × Json)
  broadcastRaised : Bool
  errorNoticeTarget : Option Nat
  loggedCount : Option Nat
  clients : List Conn

def handleMessage (cs : List Conn) (sid : Nat) (msg : String) : HandlerResult :=
  let cs1 := bumpCount sid cs
  let cs2 :=
    match declaredRoleOf msg with
    | some r => setRole sid r cs1
    | none => cs1
  let token := hexCodeOf msg
  let r := broadcastRun token (some sid) cs2
  { token := token
    deliveries := r.1
    broadcastRaised := r.2
    errorNoticeTarget := if r.2 then some sid else none
    loggedCount := if r.2 then none else some (loggedBroadcastCount cs2)
    clients := cs2 }

/-- The role currently recorded for identity `sid` (lookup in the
`clients` map). -/
def roleOf (cs : List Conn) (sid : Nat) : Option Json :=
  (cs.find? fun c => c.id = sid).map Conn.role

/-- Registry evolution across a sequence of inbound messages from the
same connection. -/
def processMessages (cs : List Conn) (sid : Nat) : List String → List Conn
  | [] => cs
  | m :: ms => processMessages (handleMessage cs sid m).clients sid ms

/-! ## Heartbeat Monitor

    function heartbeat() {
        wss.clients.forEach((ws) => {
            if (ws.isAlive === false) {
                return ws.terminate();
            }
            ws.isAlive = false;
            ws.ping();
        });
    }
-/

structure CycleResult where
  evicted : List Nat
  pinged : List Nat
  clients : List Conn

def heartbeat : List Conn → CycleResult
  | [] => { evicted := [], pinged := [], clients := [] }
  | c :: cs =>
    let r := heartbeat cs
    if c.isAlive = false then
      { r with evicted := c.id :: r.evicted }
    else
      { evicted := r.evicted
        pinged := c.id :: r.pinged
        clients := { c with isAlive := false } :: r.clients }

/-- `ws.on('pong')`: mark the connection alive again. -/
def pongHandler (sid : Nat) (cs : List Conn) : List Conn :=
  cs.map fun c => if c.id = sid then { c with isAlive := true } else c

/-- `ws.on('close')` for identity `sid` (fires after a `terminate`):
delete the record from the registry, then
`broadcastSystemMessage('Client <id> left')` to the remaining
connections.  Returns the new registry and the departure-notice
broadcast's (deliveries, raised) pair. -/
def closeHandler (cs : List Conn) (sid : Nat) (now : String) : List Conn × (List (Nat × Json) × Bool) :=
  let cs' := cs.filter fun c => c.id ≠ sid
  (cs', broadcastRun (systemEnvelope ("Client " ++ mkClientId sid ++ " left") now) none cs')

/-! ## Lifecycle Controller: shutdown

    function shutdown() {
        clearInterval(heartbeatTimer);
        const shutdownMsg = JSON.stringify({ type:'system', message:'Server is shutting down', ... });
        wss.clients.forEach((client) => {
            if (client.readyState === WebSocket.OPEN) {
                client.send(shutdownMsg);
                client.close(1001, 'Server shutdown');
            }
        });
        wss.close(... process.exit(0) ...);
        setTimeout(() => { process.exit(1); }, 5000);
    }

    process.on('uncaughtException', (error) => { console.error(...); shutdown(); });
-/

inductive SdEvent where
  | notice (id : Nat)
  | closeConn (id : Nat) (code : Nat) (reason : String)
deriving DecidableEq

def shutdownEvents : List Conn → List SdEvent
  | [] => []
  | c :: cs =>
    if c.readyState = .opened then
      .notice c.id :: .closeConn c.id 1001 "Server shutdown" :: shutdownEvents cs
    else shutdownEvents cs

structure ShutdownRun where
  heartbeatTimerCancelled : Bool
  events : List SdEvent

def shutdown (cs : List Conn) : ShutdownRun :=
  { heartbeatTimerCancelled := true, events := shutdownEvents cs }

/-- Exit status: `process.exit(0)` when the nested close callbacks run
(teardown completed) before the 5-second timer, `process.exit(1)` from
the timer otherwise. -/
def shutdownExitCode (teardownWithinGrace : Bool) : Nat :=
  if teardownWithinGrace then 0 else 1

/-- The `uncaughtException` handler logs the error and calls `shutdown`. -/
def uncaughtExceptionHandler (cs : List Conn) : ShutdownRun :=
  shutdown cs

/-! ## Browser client: `sendData` (script.js)

    function sendData(data) {
        if (!websocket || websocket.readyState !== WebSocket.OPEN) {
            displayMessage('Cannot send: Not connected to server', 'error');
            return false;
        }
        try { websocket.send(data); return true; }
        catch (error) { ...; return false; }
    }
-/

inductive WSState where
  | connecting
  | opened
  | closing
  | closed
deriving DecidableEq

structure ClientWS where
  readyState : WSState
  sendRaises : Bool

structure SendOutcome where
  returned : Bool
  sendAttempted : Bool
  raisedToCaller : Bool
deriving DecidableEq

/-- `sendData`, with `none` for a null `websocket`.  `sendAttempted`
records whether `websocket.send` was invoked; `raisedToCaller` whether an
exception escaped `sendData`. -/
def sendData (ws : Option ClientWS) : SendOutcome :=
  match ws with
  | none => { returned := false, sendAttempted := false, raisedToCaller := false }
  | some w =>
    if w.readyState ≠ .opened then
      { returned := false, sendAttempted := false, raisedToCaller := false }
    else if w.sendRaises then
      { returned := false, sendAttempted := true, raisedToCaller := false }
    else
      { returned := true, sendAttempted := true, raisedToCaller := false }

/-! ## Concrete example states

Small registry states used to evaluate the model on explicit inputs. -/

def mkConn (id : Nat) (rs : ReadyState) (alive ok : Bool) : Conn :=
  { id := id, readyState := rs, isAlive := alive, sendOk := ok,
    role := .str "unknown", messageCount := 0 }

/-- Sender 1 plus open peers 2 and 4 and a closed peer 3; all sends succeed. -/
def exConnsC1 : List Conn :=
  [mkConn 1 .opened true true, mkConn 2 .opened true true,
   mkConn 3 .closed true true, mkConn 4 .opened true true]

/-- Sender 1 plus open peers 2 and 3, where the send to 2 raises. -/
def exConnsC2 : List Conn :=
  [mkConn 1 .opened true true, mkConn 2 .opened true false,
   mkConn 3 .opened true true]

/-- Sender 1, an open peer 2 and a closed peer 3; all sends succeed. -/
def exConnsC9 : List Conn :=
  [mkConn 1 .opened true true, mkConn 2 .opened true true,
   mkConn 3 .closed true true]

/-- Connections 1 and 3 answered the last probe; connection 2 did not. -/
def exConnsC7 : List Conn :=
  [mkConn 1 .opened true true, mkConn 2 .opened false true,
   mkConn 3 .opened true true]

/-- Open connections 1 and 3 and a closed connection 2. -/
def exConnsC8 : List Conn :=
  [mkConn 1 .opened true true, mkConn 2 .closed true true,
   mkConn 3 .opened true true]

/-! ## Lemmas on the Broadcast Engine -/

/-- When every targeted send succeeds, `broadcast` delivers the token to
exactly the open connections other than the sender, in iteration order,
and no exception escapes. -/
theorem broadcastRun_all_ok (token : Json) (sender : Option Nat) (cs : List Conn)
    (hok : ∀ c ∈ cs, c.sendOk = true) :
    broadcastRun token sender cs =
      ((cs.filter fun c => some c.id ≠ sender ∧ c.readyState = .opened).map
        fun c => (c.id, token), false) := by
  induction cs with
  | nil => rfl
  | cons c cs ih =>
    have hc : c.sendOk = true := hok c (by simp)
    have ih' := ih fun d hd => hok d (by simp [hd])
    by_cases ht : some c.id ≠ sender ∧ c.readyState = .opened
    · simp [broadcastRun, hc, ih', List.filter_cons, ht.1, ht.2]
    · simp only [broadcastRun, if_neg ht, ih', List.filter_cons, decide_eq_true_eq]

/-- Every delivery a broadcast makes carries the token verbatim. -/
theorem broadcastRun_payload (token : Json) (sender : Option Nat) (cs : List Conn) :
    ∀ p ∈ (broadcastRun token sender cs).1, p.2 = token := by
  induction cs with
  | nil => simp [broadcastRun]
  | cons c cs ih =>
    intro p hp
    rw [broadcastRun] at hp
    by_cases ht : some c.id ≠ sender ∧ c.readyState = .opened
    · rw [if_pos ht] at hp
      by_cases hs : c.sendOk = true
      · simp only [hs, if_true] at hp
        rcases List.mem_cons.mp hp with h | h
        · rw [h]
        · exact ih p h
      · simp only [hs] at hp
        simp at hp
    · rw [if_neg ht] at hp
      exact ih p hp

/-! ## Lemmas on decimal identity rendering -/

theorem foldl_natDigits (n : Nat) : ∀ a : Nat,
    (natDigits n).foldl (fun a d => a * 10 + d) a = a * 10 ^ (natDigits n).length + n := by
  induction n using Nat.strong_induction_on with
  | _ n ih =>
    intro a
    rw [natDigits]
    by_cases h : n < 10
    · simp [h]
    · rw [dif_neg h, List.foldl_append]
      have hlt : n / 10 < n := Nat.div_lt_self (by omega) (by omega)
      rw [ih _ hlt]
      simp only [List.foldl_cons, List.foldl_nil, List.length_append, List.length_cons,
        List.length_nil]
      rw [pow_succ, Nat.add_mul, Nat.mul_assoc, Nat.add_assoc]
      congr 1
      omega

theorem natDigits_injective : Function.Injective natDigits := by
  intro m n h
  have hm := foldl_natDigits m 0
  have hn := foldl_natDigits n 0
  rw [h] at hm
  simp only [Nat.zero_mul, Nat.zero_add] at hm hn
  omega

theorem natDigits_lt (n : Nat) : ∀ d ∈ natDigits n, d < 10 := by
  induction n using Nat.strong_induction_on with
  | _ n ih =>
    intro d hd
    rw [natDigits] at hd
    by_cases h : n < 10
    · rw [dif_pos h] at hd
      simp at hd
      omega
    · rw [dif_neg h] at hd
      rcases List.mem_append.mp hd with h1 | h2
      · exact ih _ (Nat.div_lt_self (by omega) (by omega)) d h1
      · simp at h2
        omega

theorem digitChar_injOn {d e : Nat} (hd : d < 10) (he : e < 10)
    (h : digitChar d = digitChar e) : d = e := by
  interval_cases d <;> interval_cases e <;> revert h <;> decide

theorem map_digitChar_inj : ∀ {l₁ l₂ : List Nat}, (∀ d ∈ l₁, d < 10) → (∀ d ∈ l₂, d < 10) →
    l₁.map digitChar = l₂.map digitChar → l₁ = l₂ := by
  intro l₁
  induction l₁ with
  | nil =>
    intro l₂ _ _ h
    cases l₂ with
    | nil => rfl
    | cons b bs => simp at h
  | cons a as ihl =>
    intro l₂ h₁ h₂ h
    cases l₂ with
    | nil => simp at h
    | cons b bs =>
      simp only [List.map_cons, List.cons.injEq] at h
      have ha : a = b :=
        digitChar_injOn (h₁ a (by simp)) (h₂ b (by simp)) h.1
      have : as = bs :=
        ihl (fun d hd => h₁ d (by simp [hd])) (fun d hd => h₂ d (by simp [hd])) h.2
      rw [ha, this]

theorem natRepr_injective : Function.Injective natRepr := by
  intro m n h
  have hdata : (natDigits m).map digitChar = (natDigits n).map digitChar := by
    have := congrArg String.data h
    simpa [natRepr] using this
  exact natDigits_injective (map_digitChar_inj (natDigits_lt m) (natDigits_lt n) hdata)

theorem mkClientId_injective : Function.Injective mkClientId := by
  intro m n h
  apply natRepr_injective
  have hdata := congrArg String.data h
  simp only [mkClientId, String.data_append] at hdata
  exact String.ext (List.append_cancel_left hdata)

theorem runAccepts_eq (counter n : Nat) :
    runAccepts counter n = (List.range n).map fun i => mkClientId (counter + i) := by
  induction n generalizing counter with
  | zero => rfl
  | succ n ih =>
    rw [runAccepts, ih, List.range_succ_eq_map]
    simp [generateClientId, List.map_map, Function.comp]
    intro i _
    congr 1
    omega

/-- C6: over any sequence of connection-accept events, the assigned
identities are pairwise distinct — the counter only ever increments
(`generateClientId` returns `counter + 1`; nothing in the source ever
decrements it, so closing or evicting a connection cannot cause reuse),
and the rendered identity strings `client_<counter>` are injective in the
counter value. -/
theorem identity_uniqueness (counter n : Nat) :
    (runAccepts counter n).Nodup ∧ (generateClientId counter).2 = counter + 1 := by
  constructor
  · rw [runAccepts_eq]
    apply List.Nodup.map
    · intro i j hij
      have := mkClientId_injective hij
      omega
    · exact List.nodup_range n
  · rfl

/-- C1: broadcast exclusion.  With every targeted send succeeding (on an
open transport `ws.send` does not throw synchronously), a
`broadcast(token, sender)` call in a registry state with M open
connections other than the sender makes exactly M deliveries — one per
open non-sender connection, exactly once each — and never delivers to
the sender; no exception escapes. -/
theorem broadcast_exclusion (token : Json) (sender : Nat) (cs : List Conn)
    (hnd : (cs.map Conn.id).Nodup)
    (hok : ∀ c ∈ cs, c.sendOk = true) :
    (broadcastRun token (some sender) cs).2 = false ∧
    (broadcastRun token (some sender) cs).1 =
      ((cs.filter fun c => some c.id ≠ some sender ∧ c.readyState = .opened).map
        fun c => (c.id, token)) ∧
    ((broadcastRun token (some sender) cs).1).length =
      (cs.filter fun c => some c.id ≠ some sender ∧ c.readyState = .opened).length ∧
    (∀ c ∈ cs, c.id ≠ sender → c.readyState = .opened →
      (((broadcastRun token (some sender) cs).1).map Prod.fst).count c.id = 1) ∧
    (∀ p ∈ (broadcastRun token (some sender) cs).1, p.1 ≠ sender) := by
  have hmain := broadcastRun_all_ok token (some sender) cs hok
  refine ⟨by rw [hmain], by rw [hmain], by rw [hmain]; simp, ?_, ?_⟩
  · intro c hc hne hop
    rw [hmain]
    simp only [List.map_map]
    have hcomp : (Prod.fst ∘ fun c : Conn => (c.id, token)) = Conn.id := rfl
    rw [hcomp]
    have hsub :
        ((cs.filter fun c => some c.id ≠ some sender ∧ c.readyState = .opened).map
          Conn.id).Sublist (cs.map Conn.id) :=
      (List.filter_sublist cs).map Conn.id
    have hnd' := hnd.sublist hsub
    have hmem : c ∈ cs.filter fun c => some c.id ≠ some sender ∧ c.readyState = .opened := by
      rw [List.mem_filter]
      exact ⟨hc, by simp [hne, hop]⟩
    exact List.count_eq_one_of_mem hnd' (List.mem_map_of_mem Conn.id hmem)
  · intro p hp
    rw [hmain] at hp
    simp only [List.mem_map, List.mem_filter, decide_eq_true_eq] at hp
    obtain ⟨c, ⟨_, hcond⟩, rfl⟩ := hp
    intro h
    exact hcond.1 (congrArg some h)

/-- Witness for C1: at `exConnsC1` with sender 1, the deliveries are
exactly one each to the open peers 2 and 4 and none to the sender. -/
theorem broadcast_exclusion_witness :
    (exConnsC1.map Conn.id).Nodup ∧ (∀ c ∈ exConnsC1, c.sendOk = true) ∧
    (broadcastRun (Json.str "red") (some 1) exConnsC1).1 =
      [(2, Json.str "red"), (4, Json.str "red")] ∧
    (∀ p ∈ (broadcastRun (Json.str "red") (some 1) exConnsC1).1, p.1 ≠ 1) :=
  ⟨by decide, by decide,
   by
     rw [(broadcast_exclusion (Json.str "red") 1 exConnsC1 (by decide) (by decide)).2.1]
     rfl,
   (broadcast_exclusion (Json.str "red") 1 exConnsC1 (by decide) (by decide)).2.2.2.2⟩

/-- C2 counterexample: in `exConnsC2` the send to open target 2 raises.
`broadcast` wraps `client.send` in no try/catch, so the exception aborts
the `forEach` — the remaining open target 3 receives nothing — and
propagates to `broadcast`'s caller (second component `true`), refuting
"the failure is caught and logged inside broadcast, delivery to all
remaining targets still occurs, and no exception propagates". -/
theorem broadcast_failure_not_isolated :
    (∃ c ∈ exConnsC2, c.id ≠ 1 ∧ c.readyState = .opened ∧ c.sendOk = false) ∧
    broadcastRun (Json.str "red") (some 1) exConnsC2 = ([], true) ∧
    (∀ p ∈ (broadcastRun (Json.str "red") (some 1) exConnsC2).1, p.1 ≠ 3) := by
  refine ⟨⟨mkConn 2 .opened true false, ?_, by decide⟩, rfl, ?_⟩
  · rw [exConnsC2]
    exact List.mem_cons_of_mem _ (List.mem_cons_self _ _)
  · intro p hp
    have hnil : (broadcastRun (Json.str "red") (some 1) exConnsC2).1 = [] := rfl
    rw [hnil] at hp
    exact absurd hp (List.not_mem_nil p)

/-- C2 amended: `broadcast` performs no per-target error handling.  If a
send to an open non-sender target raises, the exception aborts the
fan-out — the deliveries are exactly those to the open non-sender
targets strictly before the first failing one, in iteration order — and
the exception propagates to `broadcast`'s caller (in the message path,
the `ws.on('message')` handler's catch, which logs it and sends an error
envelope to the sender only). -/
theorem broadcast_failure_aborts (token : Json) (sender : Option Nat) (cs : List Conn)
    (hfail : ∃ c ∈ cs, some c.id ≠ sender ∧ c.readyState = .opened ∧ c.sendOk = false) :
    (broadcastRun token sender cs).2 = true ∧
    (broadcastRun token sender cs).1 =
      (((cs.filter fun c => some c.id ≠ sender ∧ c.readyState = .opened).takeWhile
        fun c => c.sendOk).map fun c => (c.id, token)) := by
  induction cs with
  | nil => simp at hfail
  | cons c cs ih =>
    obtain ⟨d, hd, hd1, hd2, hd3⟩ := hfail
    by_cases ht : some c.id ≠ sender ∧ c.readyState = .opened
    · by_cases hs : c.sendOk = true
      · have hdc : d ≠ c := by
          intro h
          rw [h] at hd3
          rw [hd3] at hs
          cases hs
        have hfail' : ∃ d ∈ cs, some d.id ≠ sender ∧ d.readyState = .opened ∧ d.sendOk = false := by
          rcases List.mem_cons.mp hd with h | h
          · exact absurd h hdc
          · exact ⟨d, h, hd1, hd2, hd3⟩
        obtain ⟨h2, h1⟩ := ih hfail'
        have hfc : (c :: cs).filter
            (fun c => some c.id ≠ sender ∧ c.readyState = .opened) =
            c :: cs.filter (fun c => some c.id ≠ sender ∧ c.readyState = .opened) := by
          simp [List.filter_cons, ht.1, ht.2]
        constructor
        · simp only [broadcastRun, if_pos ht, hs, if_true]
          exact h2
        · simp only [broadcastRun, if_pos ht, hs, if_true]
          rw [hfc, List.takeWhile_cons_of_pos hs, List.map_cons, h1]
      · have hsf : c.sendOk = false := by
          cases hcs : c.sendOk with
          | false => rfl
          | true => exact absurd hcs hs
        have hfc : (c :: cs).filter
            (fun c => some c.id ≠ sender ∧ c.readyState = .opened) =
            c :: cs.filter (fun c => some c.id ≠ sender ∧ c.readyState = .opened) := by
          simp [List.filter_cons, ht.1, ht.2]
        constructor
        · simp only [broadcastRun, if_pos ht, hsf]
          simp
        · simp only [broadcastRun, if_pos ht, hsf]
          rw [hfc, List.takeWhile_cons_of_neg (by simp [hsf])]
          simp
    · have hfail' : ∃ d ∈ cs, some d.id ≠ sender ∧ d.readyState = .opened ∧ d.sendOk = false := by
        rcases List.mem_cons.mp hd with h | h
        · rw [h] at hd1 hd2
          exact absurd ⟨hd1, hd2⟩ ht
        · exact ⟨d, h, hd1, hd2, hd3⟩
      obtain ⟨h2, h1⟩ := ih hfail'
      have hfc : (c :: cs).filter
          (fun c => some c.id ≠ sender ∧ c.readyState = .opened) =
          cs.filter (fun c => some c.id ≠ sender ∧ c.readyState = .opened) := by
        simp only [List.filter_cons, decide_eq_true_eq]
        rw [if_neg ht]
      constructor
      · simp only [broadcastRun, if_neg ht]
        exact h2
      · simp only [broadcastRun, if_neg ht]
        rw [hfc, h1]

/-- Witness for the amended C2 at `exConnsC2`: the exception escapes. -/
theorem broadcast_failure_aborts_witness :
    (∃ c ∈ exConnsC2, some c.id ≠ some 1 ∧ c.readyState = .opened ∧ c.sendOk = false) ∧
    (broadcastRun (Json.str "red") (some 1) exConnsC2).2 = true :=
  ⟨⟨mkConn 2 .opened true false,
    by rw [exConnsC2]; exact List.mem_cons_of_mem _ (List.mem_cons_self _ _), by decide⟩,
   (broadcast_failure_aborts (Json.str "red") (some 1) exConnsC2
     ⟨mkConn 2 .opened true false,
      by rw [exConnsC2]; exact List.mem_cons_of_mem _ (List.mem_cons_self _ _),
      by decide⟩).1⟩

/-! ## Lemmas on the message handler's registry updates -/

/-- `broadcast` inspects only `id`, `readyState` and `sendOk`; updating
other metadata leaves its behaviour unchanged. -/
theorem broadcastRun_map (token : Json) (sender : Option Nat) (f : Conn → Conn)
    (hid : ∀ c, (f c).id = c.id) (hrs : ∀ c, (f c).readyState = c.readyState)
    (hok : ∀ c, (f c).sendOk = c.sendOk) :
    ∀ cs : List Conn, broadcastRun token sender (cs.map f) = broadcastRun token sender cs := by
  intro cs
  induction cs with
  | nil => rfl
  | cons c cs ih =>
    simp only [List.map_cons, broadcastRun, hid, hrs, hok, ih]

theorem broadcastRun_bumpCount (token : Json) (sender : Option Nat) (sid : Nat) (cs : List Conn) :
    broadcastRun token sender (bumpCount sid cs) = broadcastRun token sender cs := by
  apply broadcastRun_map <;> intro c <;> by_cases h : c.id = sid <;> simp [h]

theorem broadcastRun_setRole (token : Json) (sender : Option Nat) (sid : Nat) (r : Json)
    (cs : List Conn) :
    broadcastRun token sender (setRole sid r cs) = broadcastRun token sender cs := by
  apply broadcastRun_map <;> intro c <;> by_cases h : c.id = sid <;> simp [h]

theorem bumpCount_map_id (sid : Nat) (cs : List Conn) :
    (bumpCount sid cs).map Conn.id = cs.map Conn.id := by
  simp only [bumpCount, List.map_map]
  apply List.map_congr_left
  intro c _
  by_cases h : c.id = sid <;> simp [Function.comp, h]

theorem setRole_map_id (sid : Nat) (r : Json) (cs : List Conn) :
    (setRole sid r cs).map Conn.id = cs.map Conn.id := by
  simp only [setRole, List.map_map]
  apply List.map_congr_left
  intro c _
  by_cases h : c.id = sid <;> simp [Function.comp, h]

theorem bumpCount_map_role (sid : Nat) (cs : List Conn) :
    (bumpCount sid cs).map Conn.role = cs.map Conn.role := by
  simp only [bumpCount, List.map_map]
  apply List.map_congr_left
  intro c _
  by_cases h : c.id = sid <;> simp [Function.comp, h]

theorem roleOf_bumpCount (sid x : Nat) (cs : List Conn) :
    roleOf (bumpCount sid cs) x = roleOf cs x := by
  induction cs with
  | nil => rfl
  | cons c cs ih =>
    simp only [roleOf, bumpCount, List.map_cons, List.find?_cons] at *
    by_cases h1 : c.id = sid <;> by_cases h2 : c.id = x <;>
      simp_all [h1, h2]

theorem roleOf_setRole_mem (sid : Nat) (r : Json) (cs : List Conn)
    (h : sid ∈ cs.map Conn.id) :
    roleOf (setRole sid r cs) sid = some r := by
  induction cs with
  | nil => simp at h
  | cons c cs ih =>
    by_cases h1 : c.id = sid
    · simp [roleOf, setRole, List.find?_cons, h1]
    · have h' : sid ∈ cs.map Conn.id := by
        have h2 : sid = c.id ∨ ∃ a ∈ cs, a.id = sid := by simpa using h
        rcases h2 with h0 | ⟨a, ha, hak⟩
        · exact absurd h0.symm h1
        · exact List.mem_map.mpr ⟨a, ha, hak⟩
      simpa [roleOf, setRole, List.find?_cons, h1] using ih h'

theorem handleMessage_map_id (cs : List Conn) (sid : Nat) (msg : String) :
    (handleMessage cs sid msg).clients.map Conn.id = cs.map Conn.id := by
  simp only [handleMessage]
  cases declaredRoleOf msg with
  | none => exact bumpCount_map_id sid cs
  | some r => rw [setRole_map_id, bumpCount_map_id]

/-- C3: classifier totality.  When an inbound payload fails to parse as
JSON, the inner catch degrades it to a plain token: the forwarded token
is the whole decoded text, connection roles are unchanged, and the
malformed payload is never surfaced to other clients as a failure — the
outer catch's error envelope can only ever target the sender, and when
no send raises there is no error envelope at all (the handler itself is
a total function: nothing escapes its boundary). -/
theorem classifier_totality (cs : List Conn) (sid : Nat) (msg : String)
    (hparse : parseJson msg = none) :
    (handleMessage cs sid msg).token = .str msg ∧
    ((handleMessage cs sid msg).clients.map Conn.role = cs.map Conn.role) ∧
    (∀ t, (handleMessage cs sid msg).errorNoticeTarget = some t → t = sid) ∧
    ((∀ c ∈ cs, c.sendOk = true) →
      (handleMessage cs sid msg).broadcastRaised = false ∧
      (handleMessage cs sid msg).errorNoticeTarget = none) := by
  have hrole : declaredRoleOf msg = none := by simp [declaredRoleOf, hparse]
  have htok : hexCodeOf msg = .str msg := by simp [hexCodeOf, hparse]
  refine ⟨?_, ?_, ?_, ?_⟩
  · simp [handleMessage, htok]
  · simp [handleMessage, hrole, bumpCount_map_role]
  · intro t ht
    simp only [handleMessage, hrole] at ht
    by_cases hb : (broadcastRun (hexCodeOf msg) (some sid) (bumpCount sid cs)).2 = true
    · rw [if_pos hb] at ht
      exact (Option.some_inj.mp ht).symm
    · rw [if_neg hb] at ht
      simp at ht
  · intro hok
    have hb : (broadcastRun (hexCodeOf msg) (some sid) (bumpCount sid cs)).2 = false := by
      rw [broadcastRun_bumpCount, broadcastRun_all_ok _ _ _ hok]
    constructor
    · simp [handleMessage, hrole, hb]
    · simp [handleMessage, hrole, hb]

/-- Witness for C3: the literal text `red` is not JSON; it is forwarded
verbatim as the token and no error envelope arises. -/
theorem classifier_totality_witness :
    parseJson "red" = none ∧
    (handleMessage exConnsC1 1 "red").token = Json.str "red" ∧
    (handleMessage exConnsC1 1 "red").broadcastRaised = false :=
  ⟨rfl, (classifier_totality exConnsC1 1 "red" rfl).1,
   ((classifier_totality exConnsC1 1 "red" rfl).2.2.2 (by decide)).1⟩

/-- C4 counterexample: the payload `{"color":""}` parses as JSON and its
`color` field is present with value `""`, but the JavaScript `||` chain
in `parsedData.color || parsedData.message || message` is
truthiness-based, so the empty-string field value falls through and the
raw payload text is forwarded instead of the field's value — refuting
"if it parses as structured data the forwarded token is the value of
its `color` field, else the value of its `message` field, else the raw
payload text". -/
theorem token_fallback_truthiness_counterexample :
    parseJson "\x7b\"color\":\"\"\x7d" = some (.obj [("color", .str "")]) ∧
    (Json.obj [("color", .str "")]).getField "color" = some (.str "") ∧
    hexCodeOf "\x7b\"color\":\"\"\x7d" = .str "\x7b\"color\":\"\"\x7d" ∧
    Json.str "\x7b\"color\":\"\"\x7d" ≠ Json.str "" := by
  refine ⟨rfl, rfl, rfl, ?_⟩
  intro h
  injection h with h'
  exact absurd h' (by decide)

/-- C4 amended: the fallback chain is truthiness-based, exactly as the
JavaScript `||` operator behaves.  For a payload that parses as JSON the
forwarded token is the `color` field's value when that value is truthy
(for strings: non-empty), else the `message` field's value when that is
truthy, else the raw payload text; for a payload that fails to parse the
token is the whole payload text, verbatim.  In particular the literal
text `red` is forwarded as `red` and `{"message":"#00FF00"}` forwards
`#00FF00`. -/
theorem token_extraction_chain (msg : String) :
    (parseJson msg = none → hexCodeOf msg = .str msg) ∧
    (∀ j, parseJson msg = some j →
      (jsTruthy (j.getField "color") = true →
        hexCodeOf msg = (j.getField "color").getD .null) ∧
      (jsTruthy (j.getField "color") = false → jsTruthy (j.getField "message") = true →
        hexCodeOf msg = (j.getField "message").getD .null) ∧
      (jsTruthy (j.getField "color") = false → jsTruthy (j.getField "message") = false →
        hexCodeOf msg = .str msg)) ∧
    hexCodeOf "red" = .str "red" ∧
    hexCodeOf "\x7b\"message\":\"#00FF00\"\x7d" = .str "#00FF00" := by
  refine ⟨?_, ?_, rfl, rfl⟩
  · intro h
    simp [hexCodeOf, h]
  · intro j hj
    refine ⟨?_, ?_, ?_⟩
    · intro hc
      simp [hexCodeOf, hj, hc]
    · intro hc hm
      simp [hexCodeOf, hj, hc, hm]
    · intro hc hm
      simp [hexCodeOf, hj, hc, hm]

/-- Witness for the amended C4: `red` is not JSON and is forwarded
verbatim. -/
theorem token_extraction_chain_witness :
    parseJson "red" = none ∧ hexCodeOf "red" = Json.str "red" :=
  ⟨rfl, (token_extraction_chain "red").1 rfl⟩

/-- Processing a message whose payload declares role `r` ends with the
sender's recorded role equal to `r`, whatever messages follow it were
preceded by. -/
theorem processMessages_roleOf (sid : Nat) (m : String) (r : Json)
    (hm : declaredRoleOf m = some r) :
    ∀ (msgs : List String) (cs : List Conn), sid ∈ cs.map Conn.id →
      roleOf (processMessages cs sid (msgs ++ [m])) sid = some r := by
  intro msgs
  induction msgs with
  | nil =>
    intro cs hsid
    show roleOf (handleMessage cs sid m).clients sid = some r
    simp only [handleMessage, hm]
    exact roleOf_setRole_mem sid r _ (by rw [bumpCount_map_id]; exact hsid)
  | cons m' msgs ih =>
    intro cs hsid
    show roleOf (processMessages (handleMessage cs sid m').clients sid (msgs ++ [m])) sid = some r
    exact ih _ (by rw [handleMessage_map_id]; exact hsid)

/-- C5: role assignment.  A freshly registered connection's role is the
string `unknown`; after a run of messages none of which declares a
clientType, the first message that does declare one sets the sender's
role to the declared value.  Concretely, the payload
`{"color":"#FF0000","clientType":"unity"}` declares role `unity`, the
forwarded token is exactly `"#FF0000"`, and every delivery of that
broadcast carries the bare token (no envelope). -/
theorem role_assignment (cs : List Conn) (sid : Nat) (msgs : List String) (m : String)
    (r : Json)
    (_hmsgs : ∀ m' ∈ msgs, declaredRoleOf m' = none)
    (hm : declaredRoleOf m = some r)
    (hsid : sid ∈ cs.map Conn.id) :
    (registerConn sid).role = .str "unknown" ∧
    roleOf (processMessages cs sid (msgs ++ [m])) sid = some r ∧
    declaredRoleOf "\x7b\"color\":\"#FF0000\",\"clientType\":\"unity\"\x7d" =
      some (.str "unity") ∧
    (handleMessage cs sid "\x7b\"color\":\"#FF0000\",\"clientType\":\"unity\"\x7d").token =
      .str "#FF0000" ∧
    (∀ p ∈ (handleMessage cs sid
        "\x7b\"color\":\"#FF0000\",\"clientType\":\"unity\"\x7d").deliveries,
      p.2 = .str "#FF0000") := by
  refine ⟨rfl, processMessages_roleOf sid m r hm msgs cs hsid, rfl, rfl, ?_⟩
  intro p hp
  simp only [handleMessage] at hp
  exact broadcastRun_payload _ _ _ p hp

/-- Witness for C5 at a two-connection registry. -/
theorem role_assignment_witness :
    declaredRoleOf "\x7b\"color\":\"#FF0000\",\"clientType\":\"unity\"\x7d" =
      some (Json.str "unity") ∧
    roleOf (processMessages [registerConn 1, registerConn 2] 1
      ([] ++ ["\x7b\"color\":\"#FF0000\",\"clientType\":\"unity\"\x7d"])) 1 =
      some (Json.str "unity") ∧
    (handleMessage [registerConn 1, registerConn 2] 1
      "\x7b\"color\":\"#FF0000\",\"clientType\":\"unity\"\x7d").token = Json.str "#FF0000" :=
  ⟨rfl,
   (role_assignment [registerConn 1, registerConn 2] 1 []
      "\x7b\"color\":\"#FF0000\",\"clientType\":\"unity\"\x7d" (Json.str "unity")
      (by simp) rfl (by decide)).2.1,
   (role_assignment [registerConn 1, registerConn 2] 1 []
      "\x7b\"color\":\"#FF0000\",\"clientType\":\"unity\"\x7d" (Json.str "unity")
      (by simp) rfl (by decide)).2.2.2.1⟩

/-! ## Lemmas on the Heartbeat Monitor -/

/-- One heartbeat cycle terminates exactly the connections whose
liveness flag is down, and marks-suspect and probes exactly the rest. -/
theorem heartbeat_spec (cs : List Conn) :
    (heartbeat cs).evicted = (cs.filter fun c => c.isAlive = false).map Conn.id ∧
    (heartbeat cs).pinged = (cs.filter fun c => c.isAlive).map Conn.id ∧
    (heartbeat cs).clients =
      (cs.filter fun c => c.isAlive).map fun c => { c with isAlive := false } := by
  induction cs with
  | nil => exact ⟨rfl, rfl, rfl⟩
  | cons c cs ih =>
    obtain ⟨h1, h2, h3⟩ := ih
    by_cases h : c.isAlive = true
    · simp [heartbeat, h, h1, h2, h3, List.filter_cons]
    · have h' : c.isAlive = false := by
        cases hb : c.isAlive with
        | false => rfl
        | true => exact absurd hb h
      simp [heartbeat, h', h1, h2, h3, List.filter_cons]

theorem survivors_mem (cs : List Conn) {x : Conn}
    (hx : x ∈ (heartbeat cs).clients) :
    ∃ c ∈ cs, c.isAlive = true ∧ x = { c with isAlive := false } := by
  rw [(heartbeat_spec cs).2.2] at hx
  obtain ⟨c, hc, rfl⟩ := List.mem_map.mp hx
  have hm := List.mem_filter.mp hc
  exact ⟨c, hm.1, by simpa using hm.2, rfl⟩

/-- C7: heartbeat two-strike eviction.  In each cycle: connections whose
liveness flag is down are terminated (exactly those), and the close path
removes them from the Registry and broadcasts a departure notice to the
open remaining connections; the others are marked suspect and probed.  A
connection that answered the previous probe is never evicted in the
current cycle; one that answers no probe survives the first cycle and is
evicted in the second; one that pongs between cycles is again not
evicted. -/
theorem heartbeat_two_strike (cs : List Conn) (now : String)
    (hnd : (cs.map Conn.id).Nodup)
    (hok : ∀ c ∈ cs, c.sendOk = true) :
    (heartbeat cs).evicted = (cs.filter fun c => c.isAlive = false).map Conn.id ∧
    (heartbeat cs).clients =
      (cs.filter fun c => c.isAlive).map (fun c => { c with isAlive := false }) ∧
    (heartbeat cs).pinged = (cs.filter fun c => c.isAlive).map Conn.id ∧
    (∀ c ∈ cs, c.isAlive = true → c.id ∉ (heartbeat cs).evicted) ∧
    (∀ e ∈ (heartbeat cs).evicted,
      (closeHandler (heartbeat cs).clients e now).1 = (heartbeat cs).clients ∧
      (closeHandler (heartbeat cs).clients e now).2.2 = false ∧
      (closeHandler (heartbeat cs).clients e now).2.1 =
        (((heartbeat cs).clients.filter fun c => c.readyState = .opened).map
          fun c => (c.id, systemEnvelope ("Client " ++ mkClientId e ++ " left") now))) ∧
    (∀ c ∈ cs, c.isAlive = true → c.id ∈ (heartbeat (heartbeat cs).clients).evicted) ∧
    (∀ c ∈ cs, c.id ∉ (heartbeat (pongHandler c.id (heartbeat cs).clients)).evicted) := by
  obtain ⟨h1, h2, h3⟩ := heartbeat_spec cs
  have hinj : ∀ x ∈ cs, ∀ y ∈ cs, x.id = y.id → x = y :=
    List.inj_on_of_nodup_map hnd
  refine ⟨h1, h3, h2, ?_, ?_, ?_, ?_⟩
  · -- a connection that answered the previous probe is not evicted now
    intro c hc hal hmem
    rw [h1] at hmem
    obtain ⟨d, hd, hde⟩ := List.mem_map.mp hmem
    have hdm := List.mem_filter.mp hd
    have hdead : d.isAlive = false := by simpa using hdm.2
    have : d = c := hinj d hdm.1 c hc hde
    rw [this] at hdead
    rw [hal] at hdead
    cases hdead
  · -- close path for each evicted connection
    intro e he
    rw [h1] at he
    obtain ⟨d, hd, hde⟩ := List.mem_map.mp he
    have hdm := List.mem_filter.mp hd
    have hdead : d.isAlive = false := by simpa using hdm.2
    have hids : ∀ x ∈ (heartbeat cs).clients, x.id ≠ e := by
      intro x hx
      obtain ⟨c, hc, hal, rfl⟩ := survivors_mem cs hx
      intro hxe
      have : c = d := hinj c hc d hdm.1 (hxe.trans hde.symm)
      rw [this] at hal
      rw [hdead] at hal
      cases hal
    have hfix : (heartbeat cs).clients.filter (fun c => c.id ≠ e) =
        (heartbeat cs).clients :=
      List.filter_eq_self.mpr fun x hx => decide_eq_true (hids x hx)
    have hoks : ∀ x ∈ (heartbeat cs).clients, x.sendOk = true := by
      intro x hx
      obtain ⟨c, hc, _, rfl⟩ := survivors_mem cs hx
      exact hok c hc
    have hbc := broadcastRun_all_ok
      (systemEnvelope ("Client " ++ mkClientId e ++ " left") now) none
      (heartbeat cs).clients hoks
    have hfcong : ((heartbeat cs).clients.filter
        fun c => some c.id ≠ none ∧ c.readyState = .opened) =
        ((heartbeat cs).clients.filter fun c => c.readyState = .opened) := by
      apply List.filter_congr
      intro x _
      simp
    refine ⟨?_, ?_, ?_⟩
    · show (heartbeat cs).clients.filter (fun c => c.id ≠ e) = (heartbeat cs).clients
      exact hfix
    · show (broadcastRun _ none ((heartbeat cs).clients.filter fun c => c.id ≠ e)).2 = false
      rw [hfix, hbc]
    · show (broadcastRun _ none ((heartbeat cs).clients.filter fun c => c.id ≠ e)).1 = _
      rw [hfix, hbc]
      simp only [hfcong]
  · -- an unanswered connection is evicted in the following cycle
    intro c hc hal
    rw [(heartbeat_spec (heartbeat cs).clients).1]
    have hcmem : ({ c with isAlive := false } : Conn) ∈ (heartbeat cs).clients := by
      rw [h3]
      exact List.mem_map_of_mem _ (List.mem_filter.mpr ⟨hc, by simp [hal]⟩)
    have : ({ c with isAlive := false } : Conn) ∈
        (heartbeat cs).clients.filter (fun x => x.isAlive = false) :=
      List.mem_filter.mpr ⟨hcmem, by simp⟩
    exact List.mem_map.mpr ⟨_, this, rfl⟩
  · -- a pong between cycles prevents eviction
    intro c hc hmem
    rw [(heartbeat_spec (pongHandler c.id (heartbeat cs).clients)).1] at hmem
    obtain ⟨d, hd, hde⟩ := List.mem_map.mp hmem
    have hdm := List.mem_filter.mp hd
    have hdead : d.isAlive = false := by simpa using hdm.2
    obtain ⟨s, hs, hsd⟩ := List.mem_map.mp hdm.1
    by_cases hsc : s.id = c.id
    · rw [if_pos hsc] at hsd
      rw [← hsd] at hdead
      cases hdead
    · rw [if_neg hsc] at hsd
      rw [← hsd] at hde
      exact hsc hde

/-- Witness for C7 at `exConnsC7`: connection 2 missed the previous
probe and is evicted; connections 1 and 3 are probed; an alive
connection that keeps not answering is evicted in the following cycle. -/
theorem heartbeat_two_strike_witness :
    (exConnsC7.map Conn.id).Nodup ∧
    (heartbeat exConnsC7).evicted = [2] ∧
    (heartbeat exConnsC7).pinged = [1, 3] ∧
    (∀ c ∈ exConnsC7, c.isAlive = true →
      c.id ∈ (heartbeat (heartbeat exConnsC7).clients).evicted) :=
  ⟨by decide,
   by rw [(heartbeat_two_strike exConnsC7 "t" (by decide) (by decide)).1]; rfl,
   by rw [(heartbeat_two_strike exConnsC7 "t" (by decide) (by decide)).2.2.1]; rfl,
   (heartbeat_two_strike exConnsC7 "t" (by decide) (by decide)).2.2.2.2.2.1⟩

/-! ## Lemmas on the shutdown sequence -/

theorem shutdownEvents_notice_count_zero {cs : List Conn} {i : Nat}
    (h : ∀ x ∈ cs, x.id ≠ i) :
    (shutdownEvents cs).count (SdEvent.notice i) = 0 := by
  induction cs with
  | nil => rfl
  | cons c cs ih =>
    have hc := h c (by simp)
    have ih' := ih fun x hx => h x (by simp [hx])
    by_cases hco : c.readyState = .opened
    · simp [shutdownEvents, hco, List.count_cons, ih', hc]
    · simp [shutdownEvents, hco, ih']

theorem shutdownEvents_close_count_zero {cs : List Conn} {i : Nat}
    (h : ∀ x ∈ cs, x.id ≠ i) :
    (shutdownEvents cs).count (SdEvent.closeConn i 1001 "Server shutdown") = 0 := by
  induction cs with
  | nil => rfl
  | cons c cs ih =>
    have hc := h c (by simp)
    have ih' := ih fun x hx => h x (by simp [hx])
    by_cases hco : c.readyState = .opened
    · simp [shutdownEvents, hco, List.count_cons, ih', hc]
    · simp [shutdownEvents, hco, ih']

theorem shutdownEvents_counts {cs : List Conn} (hnd : (cs.map Conn.id).Nodup)
    {c : Conn} (hc : c ∈ cs) (hopen : c.readyState = .opened) :
    (shutdownEvents cs).count (SdEvent.notice c.id) = 1 ∧
    (shutdownEvents cs).count (SdEvent.closeConn c.id 1001 "Server shutdown") = 1 := by
  induction cs with
  | nil => cases hc
  | cons d cs ih =>
    have hpair : (∀ x ∈ cs, ¬ x.id = d.id) ∧ (cs.map Conn.id).Nodup := by
      simpa using hnd
    rcases List.mem_cons.mp hc with heq | hmem
    · subst heq
      constructor
      · simp [shutdownEvents, hopen, List.count_cons,
          shutdownEvents_notice_count_zero hpair.1]
      · simp [shutdownEvents, hopen, List.count_cons,
          shutdownEvents_close_count_zero hpair.1]
    · have hdc : d.id ≠ c.id := fun he => hpair.1 c hmem he.symm
      obtain ⟨ih1, ih2⟩ := ih hpair.2 hmem
      by_cases hdo : d.readyState = .opened
      · constructor
        · simp [shutdownEvents, hdo, List.count_cons, ih1, hdc]
        · simp [shutdownEvents, hdo, List.count_cons, ih2, hdc]
      · constructor
        · simp [shutdownEvents, hdo, ih1]
        · simp [shutdownEvents, hdo, ih2]

theorem shutdownEvents_adjacent {cs : List Conn} {c : Conn} (hc : c ∈ cs)
    (hopen : c.readyState = .opened) :
    ∃ l r, shutdownEvents cs =
      l ++ SdEvent.notice c.id :: SdEvent.closeConn c.id 1001 "Server shutdown" :: r := by
  induction cs with
  | nil => cases hc
  | cons d cs ih =>
    rcases List.mem_cons.mp hc with rfl | hmem
    · exact ⟨[], shutdownEvents cs, by simp [shutdownEvents, hopen]⟩
    · obtain ⟨l, r, hlr⟩ := ih hmem
      by_cases hdo : d.readyState = .opened
      · exact ⟨SdEvent.notice d.id :: SdEvent.closeConn d.id 1001 "Server shutdown" :: l, r,
          by simp [shutdownEvents, hdo, hlr]⟩
      · exact ⟨l, r, by simp [shutdownEvents, hdo, hlr]⟩

theorem shutdownEvents_notice_total (cs : List Conn) :
    (shutdownEvents cs).countP
      (fun e => match e with | SdEvent.notice _ => true | _ => false) =
    (cs.filter fun c => c.readyState = .opened).length := by
  induction cs with
  | nil => rfl
  | cons c cs ih =>
    by_cases h : c.readyState = .opened
    · simp [shutdownEvents, h, List.countP_cons, ih, List.filter_cons]
    · simp [shutdownEvents, h, ih, List.filter_cons]

/-- C8: shutdown sequence.  `shutdown` cancels the heartbeat timer;
every open connection receives exactly one shutdown notice and exactly
one close with the reserved code 1001 / reason `Server shutdown`, the
notice strictly before the close; the number of notices equals the
number K of open connections; the process exits 0 when teardown
completes within the grace period and 1 when the 5-second timer fires
first; and the `uncaughtException` handler invokes this same shutdown
path. -/
theorem shutdown_sequence (cs : List Conn)
    (hnd : (cs.map Conn.id).Nodup) :
    (shutdown cs).heartbeatTimerCancelled = true ∧
    (∀ c ∈ cs, c.readyState = .opened →
      ((shutdown cs).events.count (.notice c.id) = 1 ∧
       (shutdown cs).events.count (.closeConn c.id 1001 "Server shutdown") = 1 ∧
       ∃ l r, (shutdown cs).events =
         l ++ .notice c.id :: .closeConn c.id 1001 "Server shutdown" :: r)) ∧
    ((shutdown cs).events.countP
        (fun e => match e with | .notice _ => true | _ => false) =
      (cs.filter fun c => c.readyState = .opened).length) ∧
    shutdownExitCode true = 0 ∧ shutdownExitCode false = 1 ∧
    uncaughtExceptionHandler = shutdown := by
  refine ⟨rfl, ?_, shutdownEvents_notice_total cs, rfl, rfl, rfl⟩
  intro c hc hopen
  obtain ⟨h1, h2⟩ := shutdownEvents_counts hnd hc hopen
  exact ⟨h1, h2, shutdownEvents_adjacent hc hopen⟩

/-- Witness for C8 at `exConnsC8` (open connections 1 and 3, closed 2). -/
theorem shutdown_sequence_witness :
    (exConnsC8.map Conn.id).Nodup ∧
    (shutdown exConnsC8).events =
      [.notice 1, .closeConn 1 1001 "Server shutdown",
       .notice 3, .closeConn 3 1001 "Server shutdown"] ∧
    (shutdown exConnsC8).events.count (.notice 1) = 1 ∧
    shutdownExitCode true = 0 ∧ shutdownExitCode false = 1 :=
  ⟨by decide, rfl,
   ((shutdown_sequence exConnsC8 (by decide)).2.1 (mkConn 1 .opened true true)
      (by rw [exConnsC8]; exact List.mem_cons_self _ _) rfl).1,
   (shutdown_sequence exConnsC8 (by decide)).2.2.2.1,
   (shutdown_sequence exConnsC8 (by decide)).2.2.2.2.1⟩

/-- C9 counterexample: `broadcast` has no return statement (it returns
nothing), and what the handler logs as `broadcast "..." to N other
client(s)` is `wss.clients.size - 1`, not a delivery count.  At
`exConnsC9`, the message `red` from sender 1 yields exactly one
successful delivery (to open peer 2; peer 3's transport is closed)
while the log reports 2 — refuting "broadcast returns the count of its
successful deliveries, and this returned count is what is logged". -/
theorem broadcast_count_counterexample :
    (handleMessage exConnsC9 1 "red").deliveries.length = 1 ∧
    (handleMessage exConnsC9 1 "red").loggedCount = some 2 ∧
    (1 : Nat) ≠ 2 :=
  ⟨rfl, rfl, by decide⟩

/-- C9 amended: `broadcast` returns no value; the handler's
`broadcast to N client(s)` log reports `wss.clients.size - 1` — the
number of other registered connections regardless of transport state or
delivery outcome — while the deliveries (all sends succeeding) go to
exactly the open non-sender connections, so the logged figure can
differ from the number of successful deliveries. -/
theorem broadcast_logged_count (cs : List Conn) (sid : Nat) (msg : String)
    (hok : ∀ c ∈ cs, c.sendOk = true) :
    (handleMessage cs sid msg).loggedCount = some (cs.length - 1) ∧
    (handleMessage cs sid msg).deliveries.length =
      (cs.filter fun c => some c.id ≠ some sid ∧ c.readyState = .opened).length := by
  have hbn : broadcastRun (hexCodeOf msg) (some sid) (bumpCount sid cs) =
      broadcastRun (hexCodeOf msg) (some sid) cs := broadcastRun_bumpCount _ _ _ _
  have hall := broadcastRun_all_ok (hexCodeOf msg) (some sid) cs hok
  have hlen1 : ∀ cs' : List Conn, (bumpCount sid cs').length = cs'.length := by
    intro cs'
    simp [bumpCount]
  have hlen2 : ∀ (r : Json) (cs' : List Conn), (setRole sid r cs').length = cs'.length := by
    intro r cs'
    simp [setRole]
  cases hdr : declaredRoleOf msg with
  | none =>
    constructor
    · simp [handleMessage, hdr, hbn, hall, loggedBroadcastCount, hlen1]
    · simp [handleMessage, hdr, hbn, hall]
  | some r =>
    have hbs : broadcastRun (hexCodeOf msg) (some sid) (setRole sid r (bumpCount sid cs)) =
        broadcastRun (hexCodeOf msg) (some sid) cs := by
      rw [broadcastRun_setRole, hbn]
    constructor
    · simp [handleMessage, hdr, hbs, hall, loggedBroadcastCount, hlen2, hlen1]
    · simp [handleMessage, hdr, hbs, hall]

/-- Witness for the amended C9 at `exConnsC9`: the log says 2 while one
delivery occurred. -/
theorem broadcast_logged_count_witness :
    (∀ c ∈ exConnsC9, c.sendOk = true) ∧
    (handleMessage exConnsC9 1 "red").loggedCount = some 2 ∧
    (handleMessage exConnsC9 1 "red").deliveries.length = 1 :=
  ⟨by decide,
   (broadcast_logged_count exConnsC9 1 "red" (by decide)).1,
   (broadcast_logged_count exConnsC9 1 "red" (by decide)).2⟩

/-- C10: the client's `sendData` is total.  It never lets an exception
reach its caller; when the socket is absent or not OPEN no send is
attempted and it returns false; when the attempted send throws, the
catch returns false; and it returns true exactly when a send was issued
on an open socket without raising. -/
theorem sendData_total (ws : Option ClientWS) :
    (sendData ws).raisedToCaller = false ∧
    ((ws = none ∨ ∃ w, ws = some w ∧ w.readyState ≠ .opened) →
      (sendData ws).sendAttempted = false ∧ (sendData ws).returned = false) ∧
    (∀ w, ws = some w → w.readyState = .opened → w.sendRaises = true →
      (sendData ws).sendAttempted = true ∧ (sendData ws).returned = false) ∧
    ((sendData ws).returned = true ↔
      ∃ w, ws = some w ∧ w.readyState = .opened ∧ w.sendRaises = false) := by
  cases ws with
  | none => simp [sendData]
  | some w =>
    by_cases hr : w.readyState = .opened
    · by_cases hs : w.sendRaises = true
      · simp [sendData, hr, hs]
      · have hs' : w.sendRaises = false := by
          cases h : w.sendRaises with
          | false => rfl
          | true => exact absurd h hs
        simp [sendData, hr, hs']
    · simp [sendData, hr]

/-- Witness for C10: an open non-raising socket returns true; a null
socket attempts nothing and returns false. -/
theorem sendData_total_witness :
    (sendData (some ⟨WSState.opened, false⟩)).raisedToCaller = false ∧
    (sendData (some ⟨WSState.opened, false⟩)).returned = true ∧
    (sendData none).returned = false ∧ (sendData none).sendAttempted = false :=
  ⟨(sendData_total (some ⟨WSState.opened, false⟩)).1,
   (sendData_total (some ⟨WSState.opened, false⟩)).2.2.2.mpr
     ⟨⟨WSState.opened, false⟩, rfl, rfl, rfl⟩,
   ((sendData_total none).2.1 (Or.inl rfl)).2,
   ((sendData_total none).2.1 (Or.inl rfl)).1⟩

end VRCIA
